import Mathlib

/-!
Verification of the routine-tracker core (src/app.js).

The JavaScript state is modelled shallowly:
* JS objects used as string-keyed maps (`state.records` and each per-day
  record) become association lists `List (String × α)` with unique keys,
  looked up by `lookupKey`; property assignment becomes `setKey`
  (overwrite in place, append if absent); `delete obj[k]` becomes a
  filter on the key.
* JS numbers in the progress computation become exact rationals
  (`Math.round` on a nonnegative value is `⌊x + 1/2⌋`).
* Calendar dates become integer day numbers (days since 1970-01-01);
  `getDay()` becomes `(d + 4) % 7` since day 0 was a Thursday.
-/

namespace RoutineApp

/-- A routine, as stored in `state.routines`. -/
structure Routine where
  id : String
  name : String
  createdAt : String
deriving DecidableEq, Repr

/-- A per-day record: routine id to completion flag (a JS object). -/
abbrev DayRecord := List (String × Bool)

/-- `state.records`: date-key to day-record (a JS object). -/
abbrev Ledger := List (String × DayRecord)

/-- The local persistent state: `state.routines` and `state.records`. -/
structure LocalState where
  routines : List Routine
  records : Ledger
deriving DecidableEq, Repr

/-- JS property read `obj[k]`: first (only) entry with key `k`. -/
def lookupKey {α : Type} (k : String) : List (String × α) → Option α
  | [] => none
  | (k', v) :: rest => if k' = k then some v else lookupKey k rest

/-- JS property write `obj[k] = v`: overwrite in place, else append. -/
def setKey {α : Type} (k : String) (v : α) : List (String × α) → List (String × α)
  | [] => [(k, v)]
  | (k', v') :: rest => if k' = k then (k, v) :: rest else (k', v') :: setKey k v rest

theorem lookupKey_setKey_self {α : Type} (k : String) (v : α) (l : List (String × α)) :
    lookupKey k (setKey k v l) = some v := by
  induction l with
  | nil => simp [setKey, lookupKey]
  | cons hd tl ih =>
    obtain ⟨k', v'⟩ := hd
    by_cases h : k' = k
    · simp [setKey, lookupKey, h]
    · simp [setKey, lookupKey, h, ih]

theorem lookupKey_setKey_ne {α : Type} (k k' : String) (v : α) (l : List (String × α))
    (h : k' ≠ k) : lookupKey k' (setKey k v l) = lookupKey k' l := by
  induction l with
  | nil => simp [setKey, lookupKey, Ne.symm h]
  | cons hd tl ih =>
    obtain ⟨k0, v0⟩ := hd
    by_cases h0 : k0 = k
    · subst h0
      simp [setKey, lookupKey, Ne.symm h]
    · simp [setKey, lookupKey, h0, ih]

/-- JS `String.prototype.trim()`: strip leading and trailing whitespace.
(`String.trim` from the Lean library is extensionally the same but does not
reduce in the kernel, so the JS operation is embedded directly.) -/
def jsTrim (s : String) : String :=
  ⟨(((s.data.dropWhile Char.isWhitespace).reverse).dropWhile Char.isWhitespace).reverse⟩

/-- JS `s.startsWith(p)`. -/
def jsStartsWith (s p : String) : Bool := p.data.isPrefixOf s.data

/-- JS `Math.round` on a nonnegative value: floor of `x + 1/2`. -/
def jsRound (q : ℚ) : ℤ := ⌊q + 1/2⌋

/-- Lookup in a key-preserving value map. -/
theorem lookupKey_map_value {α β : Type} (k : String) (f : String → α → β)
    (l : List (String × α)) :
    lookupKey k (l.map (fun e => (e.1, f e.1 e.2))) = (lookupKey k l).map (f k) := by
  induction l with
  | nil => simp [lookupKey]
  | cons hd tl ih =>
    obtain ⟨k0, v0⟩ := hd
    by_cases h : k0 = k
    · subst h
      simp [lookupKey]
    · simp [lookupKey, h, ih]

-- ===== src/app.js : addRoutine (lines 198-208) =====

/-- `addRoutine(name)` from src/app.js.  The generated id and the creation
timestamp are nondeterministic in JS (`generateId()`, `new Date()`), so they
are passed as parameters.  Note the function itself performs no emptiness
check on the name. -/
def addRoutine (newId createdAt name : String) (st : LocalState) : LocalState :=
  { st with routines :=
      st.routines ++ [{ id := newId, name := jsTrim name, createdAt := createdAt }] }

/-- The `confirmAddRoutine` click handler (src/app.js lines 490-498): trims
the raw input and only calls `addRoutine` when the trimmed name is truthy
(nonempty). -/
def confirmAddRoutine (newId createdAt input : String) (st : LocalState) : LocalState :=
  let name := jsTrim input
  if name ≠ "" then addRoutine newId createdAt name st else st

-- ===== src/app.js : getHeatmapLevel (lines 409-415) =====

/-- `getHeatmapLevel(progress)` from src/app.js. -/
def getHeatmapLevel (progress : ℤ) : ℕ :=
  if progress = 0 then 0
  else if progress ≤ 25 then 1
  else if progress ≤ 50 then 2
  else if progress ≤ 75 then 3
  else 4

-- ===== src/app.js : calculateProgress (lines 255-269) =====

/-- `calculateProgress(date)` from src/app.js, with the canonical date key
passed in place of the date.  Counts routines of the current collection whose
stored flag for that day is truthy, and rounds the percentage. -/
def calculateProgress (routines : List Routine) (records : Ledger) (dateKey : String) : ℤ :=
  if routines.length = 0 then 0
  else
    let dayRecords := (lookupKey dateKey records).getD []
    let completed := (routines.filter fun r => (lookupKey r.id dayRecords).getD false).length
    jsRound ((completed : ℚ) / (routines.length : ℚ) * 100)

/-- C4: for every percent in `[0,100]`, `getHeatmapLevel` is `0` iff the
percent is `0`, and otherwise buckets `(0,25]`, `(25,50]`, `(50,75]`,
`(75,100]` to levels 1-4, boundaries closed on the upper end. -/
theorem getHeatmapLevel_buckets (p : ℤ) (h0 : 0 ≤ p) (h1 : p ≤ 100) :
    (getHeatmapLevel p = 0 ↔ p = 0) ∧
      (0 < p → p ≤ 25 → getHeatmapLevel p = 1) ∧
      (25 < p → p ≤ 50 → getHeatmapLevel p = 2) ∧
      (50 < p → p ≤ 75 → getHeatmapLevel p = 3) ∧
      (75 < p → p ≤ 100 → getHeatmapLevel p = 4) := by
  unfold getHeatmapLevel
  refine ⟨?_, ?_, ?_, ?_, ?_⟩ <;> split_ifs <;> simp_all <;> omega

/-- Witness for C4 at the boundary values 25, 50, 75 and at 0 and 100. -/
theorem getHeatmapLevel_buckets_w :
    getHeatmapLevel 0 = 0 ∧ getHeatmapLevel 25 = 1 ∧ getHeatmapLevel 26 = 2 ∧
      getHeatmapLevel 50 = 2 ∧ getHeatmapLevel 51 = 3 ∧ getHeatmapLevel 75 = 3 ∧
      getHeatmapLevel 100 = 4 :=
  ⟨(getHeatmapLevel_buckets 0 (by decide) (by decide)).1.mpr rfl,
   (getHeatmapLevel_buckets 25 (by decide) (by decide)).2.1 (by decide) (by decide),
   (getHeatmapLevel_buckets 26 (by decide) (by decide)).2.2.1 (by decide) (by decide),
   (getHeatmapLevel_buckets 50 (by decide) (by decide)).2.2.1 (by decide) (by decide),
   (getHeatmapLevel_buckets 51 (by decide) (by decide)).2.2.2.1 (by decide) (by decide),
   (getHeatmapLevel_buckets 75 (by decide) (by decide)).2.2.2.1 (by decide) (by decide),
   (getHeatmapLevel_buckets 100 (by decide) (by decide)).2.2.2.2 (by decide) (by decide)⟩

/-- C2 counterexample: `addRoutine` itself performs no emptiness check, so
calling it with a blank name appends a routine (collection length changes
from 0 to 1), contradicting the claim that it is a no-op. -/
theorem addRoutine_blank_appends :
    (addRoutine "id1" "t0" "   " (LocalState.mk [] [])).routines.length ≠
      (LocalState.mk [] []).routines.length := by
  decide

/-- C2 amended: the emptiness guard lives in the `confirmAddRoutine` click
handler, so the add-routine flow invoked with an input whose trimmed form is
empty is a no-op on the whole local state. -/
theorem confirmAddRoutine_blank_noop (newId createdAt input : String) (st : LocalState)
    (h : jsTrim input = "") : confirmAddRoutine newId createdAt input st = st := by
  simp [confirmAddRoutine, h]

/-- Witness for the amended C2 at the blank inputs from the spec. -/
theorem confirmAddRoutine_blank_noop_w :
    jsTrim "   " = "" ∧ jsTrim "" = "" ∧
      confirmAddRoutine "id1" "t0" "   " (LocalState.mk [] []) = LocalState.mk [] [] ∧
      confirmAddRoutine "id1" "t0" "" (LocalState.mk [] []) = LocalState.mk [] [] :=
  ⟨by decide, by decide,
   confirmAddRoutine_blank_noop "id1" "t0" "   " (LocalState.mk [] []) (by decide),
   confirmAddRoutine_blank_noop "id1" "t0" "" (LocalState.mk [] []) (by decide)⟩

/-- C3: `calculateProgress` returns 0 on an empty routine collection, always
returns an integer in `[0,100]`, yields 25 for 1 of 4 complete and 67 for
2 of 3 complete, and ignores stale day-record entries whose id is not in the
current collection (2 routines, 1 complete plus a stale entry, gives 50). -/
theorem calculateProgress_spec :
    (∀ records dateKey, calculateProgress [] records dateKey = 0) ∧
      (∀ routines records dateKey,
          0 ≤ calculateProgress routines records dateKey ∧
            calculateProgress routines records dateKey ≤ 100) ∧
      calculateProgress
          [⟨"r1", "a", ""⟩, ⟨"r2", "b", ""⟩, ⟨"r3", "c", ""⟩, ⟨"r4", "d", ""⟩]
          [("2024-01-01", [("r1", true)])] "2024-01-01" = 25 ∧
      calculateProgress [⟨"r1", "a", ""⟩, ⟨"r2", "b", ""⟩, ⟨"r3", "c", ""⟩]
          [("2024-01-01", [("r1", true), ("r2", true)])] "2024-01-01" = 67 ∧
      calculateProgress [⟨"r1", "a", ""⟩, ⟨"r2", "b", ""⟩]
          [("2024-01-01", [("stale", true), ("r1", true)])] "2024-01-01" = 50 := by
  refine ⟨?_, ?_, ?_, ?_, ?_⟩
  · intro records dateKey
    simp [calculateProgress]
  · intro routines records dateKey
    unfold calculateProgress
    split_ifs with hlen
    · exact ⟨le_refl 0, by norm_num⟩
    · set c := (routines.filter fun r =>
        (lookupKey r.id ((lookupKey dateKey records).getD [])).getD false).length with hc
      have hct : c ≤ routines.length := List.length_filter_le _ _
      have ht : 0 < routines.length := Nat.pos_of_ne_zero hlen
      have htq : (0 : ℚ) < (routines.length : ℚ) := by exact_mod_cast ht
      have hq1 : ((c : ℚ) / (routines.length : ℚ)) ≤ 1 :=
        (div_le_one htq).mpr (by exact_mod_cast hct)
      have hq0 : (0 : ℚ) ≤ (c : ℚ) / (routines.length : ℚ) := by positivity
      constructor
      · exact Int.le_floor.mpr (by nlinarith)
      · have : ((c : ℚ) / (routines.length : ℚ) * 100 + 1 / 2) < 101 := by nlinarith
        exact Int.lt_add_one_iff.mp (Int.floor_lt.mpr (by push_cast; linarith))
  · simp [calculateProgress, lookupKey, List.filter_cons]
    norm_num [jsRound]
  · simp [calculateProgress, lookupKey, List.filter_cons]
    norm_num [jsRound]
  · simp [calculateProgress, lookupKey, List.filter_cons]
    norm_num [jsRound]

-- ===== src/app.js : deleteRoutine (lines 220-233) =====

/-- `deleteRoutine(id)` from src/app.js: filter the routine out of the
collection and delete its key from every day-record. -/
def deleteRoutine (id : String) (st : LocalState) : LocalState :=
  { routines := st.routines.filter fun r => r.id ≠ id,
    records := st.records.map fun e => (e.1, e.2.filter fun kv => kv.1 ≠ id) }

/-- The orphan-cleanup invariant: no day-record references a routine id
outside the current routine collection. -/
def orphanInv (st : LocalState) : Prop :=
  ∀ d rec, lookupKey d st.records = some rec →
    ∀ rid b, lookupKey rid rec = some b → ∃ r ∈ st.routines, r.id = rid

/-- Lookup in a list whose entries with key `id` have been filtered out. -/
theorem lookupKey_filter_ne {α : Type} (k id : String) (l : List (String × α)) :
    lookupKey k (l.filter fun kv => kv.1 ≠ id) =
      if k = id then none else lookupKey k l := by
  induction l with
  | nil => simp [lookupKey]
  | cons hd tl ih =>
    obtain ⟨k0, v0⟩ := hd
    simp only [decide_not] at ih ⊢
    by_cases h0 : k0 = id
    · subst h0
      rcases eq_or_ne k k0 with hk | hk
      · subst hk
        simp [List.filter_cons, lookupKey, ih]
      · simp [List.filter_cons, lookupKey, ih, hk, Ne.symm hk]
    · by_cases hk : k0 = k
      · subst hk
        simp [List.filter_cons, h0, lookupKey, ih]
      · simp [List.filter_cons, h0, lookupKey, hk, ih]

-- ===== src/app.js : toggleRoutineCheck (lines 235-247) =====

/-- `toggleRoutineCheck(routineId, checked)` from src/app.js, with the
canonical key of the current date passed in.  Lazily creates the day-record,
then stores the flag. -/
def toggleRoutineCheck (dateKey routineId : String) (checked : Bool)
    (st : LocalState) : LocalState :=
  let day := (lookupKey dateKey st.records).getD []
  { st with records := setKey dateKey (setKey routineId checked day) st.records }

-- ===== src/app.js : updateRoutine (lines 210-218) and its handler =====

/-- `updateRoutine(id, name)` from src/app.js: the first routine whose id
matches gets its name set to the trimmed argument; nothing else changes. -/
def updateRoutineList (id name : String) : List Routine → List Routine
  | [] => []
  | r :: rs =>
    if r.id = id then { r with name := jsTrim name } :: rs
    else r :: updateRoutineList id name rs

def updateRoutine (id name : String) (st : LocalState) : LocalState :=
  { st with routines := updateRoutineList id name st.routines }

/-- The `saveEditRoutine` click handler (src/app.js lines 512-520): trims the
raw input and only calls `updateRoutine` when both the trimmed name and the
editing id are truthy. -/
def saveEditRoutine (editingRoutineId : Option String) (input : String)
    (st : LocalState) : LocalState :=
  let name := jsTrim input
  match editingRoutineId with
  | some id => if name ≠ "" ∧ id ≠ "" then updateRoutine id name st else st
  | none => st

-- ===== src/app.js : saveSyncSettings handler (lines 564-588) =====

inductive SyncStatus
  | idle
  | syncing
  | synced
  | error
  | disconnected
deriving DecidableEq, Repr

/-- Outcome of the `saveSyncSettings` click handler: the stored endpoint, a
flag for the inline validation message, and the sync-status indicator set by
the handler itself (`none` when a pull is triggered instead). -/
structure SyncSettingsResult where
  scriptUrl : Option String
  validationError : Bool
  status : Option SyncStatus
deriving DecidableEq, Repr

/-- The `saveSyncSettings` click handler (src/app.js lines 564-588). -/
def saveSyncSettings (input : String) (current : Option String) : SyncSettingsResult :=
  let url := jsTrim input
  if url ≠ "" ∧ ¬ jsStartsWith url "https://script.google.com/" then
    { scriptUrl := current, validationError := true, status := none }
  else
    let newUrl := if url = "" then none else some url
    match newUrl with
    | some u => { scriptUrl := some u, validationError := false, status := none }
    | none =>
      { scriptUrl := none, validationError := false,
        status := some SyncStatus.disconnected }

theorem updateRoutineList_not_found (id name : String) (l : List Routine)
    (h : ∀ r ∈ l, r.id ≠ id) : updateRoutineList id name l = l := by
  induction l with
  | nil => simp [updateRoutineList]
  | cons r rs ih =>
    have hr : r.id ≠ id := h r (List.mem_cons_self r rs)
    simp only [updateRoutineList, if_neg hr]
    rw [ih fun r' hr' => h r' (List.mem_cons_of_mem r hr')]

theorem updateRoutineList_found (id name : String) (l1 l2 : List Routine) (r : Routine)
    (h1 : ∀ r' ∈ l1, r'.id ≠ id) (hr : r.id = id) :
    updateRoutineList id name (l1 ++ r :: l2) =
      l1 ++ { r with name := jsTrim name } :: l2 := by
  induction l1 with
  | nil => simp [updateRoutineList, hr]
  | cons a as ih =>
    have ha : a.id ≠ id := h1 a (List.mem_cons_self a as)
    simp only [List.cons_append, updateRoutineList, if_neg ha, List.append_eq]
    rw [ih fun r' hr' => h1 r' (List.mem_cons_of_mem a hr')]

-- ===== Claim theorems =====

/-- C5: `deleteRoutine(id)` removes every routine with that id from the
collection, rewrites every day-record to its version with the id entry
removed (hence no surviving day-record contains the id), and preserves the
orphan-cleanup invariant. -/
theorem deleteRoutine_spec (id : String) (st : LocalState) :
    (∀ r ∈ (deleteRoutine id st).routines, r.id ≠ id) ∧
      (∀ d rec, lookupKey d st.records = some rec →
          lookupKey d (deleteRoutine id st).records =
            some (rec.filter fun kv => kv.1 ≠ id)) ∧
      (∀ d rec, lookupKey d (deleteRoutine id st).records = some rec →
          lookupKey id rec = none) ∧
      (orphanInv st → orphanInv (deleteRoutine id st)) := by
  have hmap : ∀ d, lookupKey d (deleteRoutine id st).records =
      (lookupKey d st.records).map fun rec => rec.filter fun kv => kv.1 ≠ id := by
    intro d
    exact lookupKey_map_value d (fun _ rec => rec.filter fun kv => kv.1 ≠ id) st.records
  refine ⟨?_, ?_, ?_, ?_⟩
  · intro r hr
    have := List.of_mem_filter hr
    simpa using this
  · intro d rec h
    rw [hmap, h, Option.map_some']
  · intro d rec h
    rw [hmap] at h
    rcases Option.map_eq_some'.mp h with ⟨rec0, _, hrec⟩
    subst hrec
    rw [lookupKey_filter_ne]
    simp
  · intro hinv d rec h rid b hb
    rw [hmap] at h
    rcases Option.map_eq_some'.mp h with ⟨rec0, h0, hrec⟩
    subst hrec
    rw [lookupKey_filter_ne] at hb
    by_cases hne : rid = id
    · simp [hne] at hb
    · rw [if_neg hne] at hb
      rcases hinv d rec0 h0 rid b hb with ⟨r, hrmem, hrid⟩
      refine ⟨r, ?_, hrid⟩
      apply List.mem_filter.mpr
      exact ⟨hrmem, by simpa [hrid] using hne⟩

/-- Example state for the C5 witness. -/
def exSt5 : LocalState :=
  { routines := [⟨"a", "A", ""⟩, ⟨"b", "B", ""⟩],
    records := [("2024-01-01", [("a", true)])] }

/-- Witness for C5: deleting routine `a` in a concrete two-routine state. -/
theorem deleteRoutine_spec_w :
    ((⟨"b", "B", ""⟩ : Routine).id ≠ "a") ∧
      lookupKey "2024-01-01" (deleteRoutine "a" exSt5).records = some [] ∧
      lookupKey "a" ([] : DayRecord) = none ∧
      orphanInv (deleteRoutine "a" exSt5) := by
  have D := deleteRoutine_spec "a" exSt5
  have hinv : orphanInv exSt5 := by
    intro d rec h rid b hb
    simp only [exSt5, lookupKey] at h
    split at h
    · cases h
      simp only [lookupKey] at hb
      split at hb
      · refine ⟨⟨"a", "A", ""⟩, by simp [exSt5], by simp_all⟩
      · cases hb
    · cases h
  have h2 := D.2.1 "2024-01-01" [("a", true)] (by decide)
  refine ⟨D.1 ⟨"b", "B", ""⟩ (by decide), ?_, ?_, D.2.2.2 hinv⟩
  · simpa using h2
  · exact D.2.2.1 "2024-01-01" [] (by simpa using h2)

/-- C10: storing a completion flag for `(dateKey, routineId)` changes only
that single entry: the routine collection is untouched, every other date-key
keeps its day-record, and in the (lazily created) day-record for that date
every other routine id keeps its value while `routineId` now maps to the
stored flag. -/
theorem toggleRoutineCheck_frame (dateKey routineId : String) (checked : Bool)
    (st : LocalState) :
    (toggleRoutineCheck dateKey routineId checked st).routines = st.routines ∧
      (∀ d, d ≠ dateKey →
          lookupKey d (toggleRoutineCheck dateKey routineId checked st).records =
            lookupKey d st.records) ∧
      lookupKey dateKey (toggleRoutineCheck dateKey routineId checked st).records =
        some (setKey routineId checked ((lookupKey dateKey st.records).getD [])) ∧
      (∀ rid, rid ≠ routineId →
          lookupKey rid (setKey routineId checked ((lookupKey dateKey st.records).getD [])) =
            lookupKey rid ((lookupKey dateKey st.records).getD [])) ∧
      lookupKey routineId (setKey routineId checked ((lookupKey dateKey st.records).getD [])) =
        some checked := by
  refine ⟨rfl, ?_, ?_, ?_, ?_⟩
  · intro d hd
    exact lookupKey_setKey_ne dateKey d _ st.records hd
  · exact lookupKey_setKey_self dateKey _ st.records
  · intro rid hrid
    exact lookupKey_setKey_ne routineId rid checked _ hrid
  · exact lookupKey_setKey_self routineId checked _

/-- Example state for the C10 witness. -/
def exSt10 : LocalState :=
  { routines := [⟨"r1", "A", ""⟩],
    records := [("2024-01-01", [("r1", true)]), ("2024-01-02", [("r2", false)])] }

/-- Witness for C10 on a concrete ledger: toggling `r1` on 2024-01-02 leaves
2024-01-01 and the `r2` entry alone. -/
theorem toggleRoutineCheck_frame_w :
    (toggleRoutineCheck "2024-01-02" "r1" true exSt10).routines = exSt10.routines ∧
      lookupKey "2024-01-01" (toggleRoutineCheck "2024-01-02" "r1" true exSt10).records =
        lookupKey "2024-01-01" exSt10.records ∧
      lookupKey "2024-01-02" (toggleRoutineCheck "2024-01-02" "r1" true exSt10).records =
        some (setKey "r1" true ((lookupKey "2024-01-02" exSt10.records).getD [])) ∧
      lookupKey "r2" (setKey "r1" true ((lookupKey "2024-01-02" exSt10.records).getD [])) =
        lookupKey "r2" ((lookupKey "2024-01-02" exSt10.records).getD []) ∧
      lookupKey "r1" (setKey "r1" true ((lookupKey "2024-01-02" exSt10.records).getD [])) =
        some true := by
  have T := toggleRoutineCheck_frame "2024-01-02" "r1" true exSt10
  exact ⟨T.1, T.2.1 "2024-01-01" (by decide), T.2.2.1,
    T.2.2.2.1 "r2" (by decide), T.2.2.2.2⟩

/-- C7: the rename flow (`saveEditRoutine` handler plus `updateRoutine`) is a
no-op when the trimmed input is empty or the editing id is not in the routine
collection; otherwise it rewrites exactly the first routine with that id to
carry the trimmed name, preserving its id, its creation time, its position,
the rest of the collection, and the ledger. -/
theorem saveEditRoutine_spec :
    (∀ id input st, jsTrim input = "" → saveEditRoutine (some id) input st = st) ∧
      (∀ id input st, (∀ r ∈ st.routines, r.id ≠ id) →
          saveEditRoutine (some id) input st = st) ∧
      (∀ id input st l1 r l2, id ≠ "" → jsTrim input ≠ "" →
          st.routines = l1 ++ r :: l2 → (∀ r' ∈ l1, r'.id ≠ id) → r.id = id →
          (saveEditRoutine (some id) input st).routines =
              l1 ++ { r with name := jsTrim (jsTrim input) } :: l2 ∧
            (saveEditRoutine (some id) input st).records = st.records) := by
  refine ⟨?_, ?_, ?_⟩
  · intro id input st h
    simp [saveEditRoutine, h]
  · intro id input st h
    by_cases hg : jsTrim input ≠ "" ∧ id ≠ ""
    · simp only [saveEditRoutine, if_pos hg, updateRoutine]
      rw [updateRoutineList_not_found id (jsTrim input) st.routines h]
    · simp [saveEditRoutine, hg]
  · intro id input st l1 r l2 hid hname hsplit hl1 hr
    have hg : jsTrim input ≠ "" ∧ id ≠ "" := ⟨hname, hid⟩
    simp only [saveEditRoutine, if_pos hg, updateRoutine]
    constructor
    · rw [hsplit, updateRoutineList_found id (jsTrim input) l1 l2 r hl1 hr]
    · trivial

/-- Example state for the C7 witness. -/
def exSt7 : LocalState :=
  { routines := [⟨"a", "Old", ""⟩, ⟨"b", "B", ""⟩], records := [] }

/-- Witness for C7: blank input and unknown id are no-ops; renaming routine
`a` with input `" New "` rewrites exactly that routine in place. -/
theorem saveEditRoutine_spec_w :
    saveEditRoutine (some "a") "   " exSt7 = exSt7 ∧
      saveEditRoutine (some "z") "New" exSt7 = exSt7 ∧
      (saveEditRoutine (some "a") " New " exSt7).routines =
        [⟨"a", "New", ""⟩, ⟨"b", "B", ""⟩] ∧
      (saveEditRoutine (some "a") " New " exSt7).records = exSt7.records := by
  have H := saveEditRoutine_spec
  have h3 := H.2.2 "a" " New " exSt7 [] ⟨"a", "Old", ""⟩ [⟨"b", "B", ""⟩]
    (by decide) (by decide) (by decide) (by decide) (by decide)
  refine ⟨H.1 "a" "   " exSt7 (by decide), H.2.1 "z" "New" exSt7 (by decide), ?_, h3.2⟩
  rw [h3.1]
  decide

/-- C9: a nonempty trimmed candidate endpoint that does not start with the
Google Apps Script prefix is rejected: the stored endpoint is unchanged and
the inline validation error is shown; an empty candidate clears the stored
endpoint and sets the indicator to disconnected. -/
theorem saveSyncSettings_spec :
    (∀ input current, jsTrim input ≠ "" →
        jsStartsWith (jsTrim input) "https://script.google.com/" = false →
        saveSyncSettings input current =
          { scriptUrl := current, validationError := true, status := none }) ∧
      (∀ input current, jsTrim input = "" →
          saveSyncSettings input current =
            { scriptUrl := none, validationError := false,
              status := some SyncStatus.disconnected }) := by
  constructor
  · intro input current h1 h2
    simp [saveSyncSettings, h1, h2]
  · intro input current h
    simp [saveSyncSettings, h]

/-- Witness for C9: a malformed candidate is rejected with the current
endpoint kept; a blank candidate clears the endpoint. -/
theorem saveSyncSettings_spec_w :
    saveSyncSettings "http://evil.example/x" (some "https://script.google.com/old") =
        { scriptUrl := some "https://script.google.com/old", validationError := true,
          status := none } ∧
      saveSyncSettings "   " (some "https://script.google.com/old") =
        { scriptUrl := none, validationError := false,
          status := some SyncStatus.disconnected } :=
  ⟨saveSyncSettings_spec.1 "http://evil.example/x" (some "https://script.google.com/old")
      (by decide) (by decide),
   saveSyncSettings_spec.2 "   " (some "https://script.google.com/old") (by decide)⟩

-- ===== src/app.js : syncFromCloud (lines 80-116) =====

/-- The JS spread `\x7b ...a, ...b \x7d` on string-keyed objects: the keys of
`a` in order (values from `b` where `b` also has the key), then the keys
only `b` has. -/
def spreadMerge {α : Type} (a b : List (String × α)) : List (String × α) :=
  (a.map fun kv =>
    match lookupKey kv.1 b with
    | some v => (kv.1, v)
    | none => kv) ++
    b.filter fun kv => (lookupKey kv.1 a).isNone

/-- The parsed body of a `GET <endpoint>` response. -/
structure SyncResponse where
  success : Bool
  routines : Option (List Routine)
  records : Option Ledger
  errorMsg : Option String

/-- Outcome of `fetch` plus `response.json()`: a parsed body, or a thrown
exception (transport failure or malformed body). -/
inductive FetchOutcome
  | ok (data : SyncResponse)
  | exn

/-- The merge block of `syncFromCloud` (src/app.js lines 91-100): replace
the routine collection when the remote one is nonempty; spread-merge the
remote records over the local ones when the remote object has keys. -/
def mergedState (st : LocalState) (data : SyncResponse) : LocalState :=
  let st1 :=
    match data.routines with
    | some rs => if rs.length > 0 then { st with routines := rs } else st
    | none => st
  match data.records with
  | some recs =>
    if recs.length > 0 then { st1 with records := spreadMerge st1.records recs }
    else st1
  | none => st1

/-- `syncFromCloud()` from src/app.js.  Returns the local state after the
call, the boolean result, and the final sync-status indicator (`none` when
the guard returned early before any UI update). -/
def syncFromCloud (scriptUrl : Option String) (isSyncing : Bool) (st : LocalState)
    (outcome : FetchOutcome) : LocalState × Bool × Option SyncStatus :=
  if scriptUrl.isNone || isSyncing then (st, false, none)
  else
    match outcome with
    | .ok data =>
      if data.success then (mergedState st data, true, some SyncStatus.synced)
      else (st, false, some SyncStatus.error)
    | .exn => (st, false, some SyncStatus.error)

theorem lookupKey_append {α : Type} (k : String) (a b : List (String × α)) :
    lookupKey k (a ++ b) =
      match lookupKey k a with
      | some v => some v
      | none => lookupKey k b := by
  induction a with
  | nil => simp [lookupKey]
  | cons hd tl ih =>
    obtain ⟨k0, v0⟩ := hd
    by_cases h : k0 = k
    · simp [lookupKey, h]
    · simp [lookupKey, h, ih]

theorem lookupKey_spreadMap {α : Type} (k : String) (a b : List (String × α)) :
    lookupKey k (a.map fun kv =>
        match lookupKey kv.1 b with
        | some v => (kv.1, v)
        | none => kv) =
      match lookupKey k a, lookupKey k b with
      | some _, some v => some v
      | some w, none => some w
      | none, _ => none := by
  induction a with
  | nil => simp [lookupKey]
  | cons hd tl ih =>
    obtain ⟨k0, v0⟩ := hd
    rcases hb : lookupKey k0 b with _ | v
    · by_cases h : k0 = k
      · subst h
        simp [lookupKey, hb]
      · simp [lookupKey, h, hb, ih]
    · by_cases h : k0 = k
      · subst h
        simp [lookupKey, hb]
      · simp [lookupKey, h, hb, ih]

theorem lookupKey_filterNone {α : Type} (k : String) (a b : List (String × α)) :
    lookupKey k (b.filter fun kv => (lookupKey kv.1 a).isNone) =
      if (lookupKey k a).isNone then lookupKey k b else none := by
  induction b with
  | nil => simp [lookupKey]
  | cons hd tl ih =>
    obtain ⟨k0, v0⟩ := hd
    by_cases h : k0 = k
    · subst h
      cases ha : (lookupKey k0 a).isNone
      · simp [List.filter_cons, ha, lookupKey, ih]
      · simp [List.filter_cons, ha, lookupKey]
    · cases ha : (lookupKey k0 a).isNone <;>
        simp [List.filter_cons, ha, lookupKey, h, ih]

/-- Remote wins on keys the remote object has. -/
theorem lookupKey_spreadMerge_remote {α : Type} (k : String) (v : α)
    (a b : List (String × α)) (h : lookupKey k b = some v) :
    lookupKey k (spreadMerge a b) = some v := by
  unfold spreadMerge
  rw [lookupKey_append, lookupKey_spreadMap, lookupKey_filterNone]
  rcases ha : lookupKey k a with _ | w <;> simp [ha, h]

/-- Keys the remote object lacks keep their local value. -/
theorem lookupKey_spreadMerge_local {α : Type} (k : String)
    (a b : List (String × α)) (h : lookupKey k b = none) :
    lookupKey k (spreadMerge a b) = lookupKey k a := by
  unfold spreadMerge
  rw [lookupKey_append, lookupKey_spreadMap, lookupKey_filterNone]
  rcases ha : lookupKey k a with _ | w <;> simp [ha, h]

/-- C1: a successful pull with a well-formed success body returns true,
replaces the routine collection wholesale whenever the remote collection is
nonempty, and merges day-records at date-key granularity: date-keys absent
from the remote records keep their full local day-record, date-keys present
in the remote records carry exactly the remote day-record. -/
theorem syncFromCloud_success_merge (u : String) (st : LocalState)
    (data : SyncResponse) (hs : data.success = true) :
    (syncFromCloud (some u) false st (.ok data)).2.1 = true ∧
      (∀ rs, data.routines = some rs → 0 < rs.length →
          (syncFromCloud (some u) false st (.ok data)).1.routines = rs) ∧
      (∀ k, lookupKey k (data.records.getD []) = none →
          lookupKey k (syncFromCloud (some u) false st (.ok data)).1.records =
            lookupKey k st.records) ∧
      (∀ k v, lookupKey k (data.records.getD []) = some v →
          lookupKey k (syncFromCloud (some u) false st (.ok data)).1.records = some v) := by
  have hok : syncFromCloud (some u) false st (.ok data) =
      (mergedState st data, true, some SyncStatus.synced) := by
    simp [syncFromCloud, hs]
  rw [hok]
  refine ⟨rfl, ?_, ?_, ?_⟩
  · intro rs hrs hlen
    unfold mergedState
    rcases hrec : data.records with _ | recs
    · simp [hrs, hlen]
    · by_cases h0 : 0 < recs.length
      · simp [hrs, hlen, h0]
      · simp [hrs, hlen, h0]
  · intro k hk
    unfold mergedState
    rcases hrec : data.records with _ | recs
    · rcases data.routines with _ | rs
      · simp
      · by_cases hrs : 0 < rs.length <;> simp [hrs]
    · rw [hrec] at hk
      simp only [Option.getD_some] at hk
      rcases Nat.eq_zero_or_pos recs.length with h0 | h0
      · have hnil : recs = [] := List.length_eq_zero.mp h0
        subst hnil
        rcases data.routines with _ | rs
        · simp
        · by_cases hrs : 0 < rs.length <;> simp [hrs]
      · have hmerge := lookupKey_spreadMerge_local k st.records recs hk
        rcases data.routines with _ | rs
        · simpa [h0] using hmerge
        · by_cases hrs : 0 < rs.length
          · simpa [h0, hrs] using hmerge
          · simpa [h0, hrs] using hmerge
  · intro k v hk
    unfold mergedState
    rcases hrec : data.records with _ | recs
    · rw [hrec] at hk
      simp [lookupKey] at hk
    · rw [hrec] at hk
      simp only [Option.getD_some] at hk
      have h0 : 0 < recs.length := by
        rcases recs with _ | ⟨e, es⟩
        · simp [lookupKey] at hk
        · simp
      have hmerge := lookupKey_spreadMerge_remote k v st.records recs hk
      rcases data.routines with _ | rs
      · simpa [h0] using hmerge
      · by_cases hrs : 0 < rs.length
        · simpa [h0, hrs] using hmerge
        · simpa [h0, hrs] using hmerge

/-- Example local state for the C1 witness: the merge example from the spec. -/
def exSt1 : LocalState :=
  { routines := [⟨"r1", "A", ""⟩], records := [("2024-01-01", [("r1", true)])] }

/-- Witness for C1: pulling remote records for 2024-01-02 keeps the local
2024-01-01 record and adds the remote one; pulling remote records for
2024-01-01 overwrites that day-record wholesale; a nonempty remote routine
collection replaces the local one. -/
theorem syncFromCloud_success_merge_w :
    (syncFromCloud (some "u") false exSt1
        (.ok ⟨true, none, some [("2024-01-02", [("r1", false)])], none⟩)).2.1 = true ∧
      lookupKey "2024-01-01"
          (syncFromCloud (some "u") false exSt1
            (.ok ⟨true, none, some [("2024-01-02", [("r1", false)])], none⟩)).1.records =
        lookupKey "2024-01-01" exSt1.records ∧
      lookupKey "2024-01-02"
          (syncFromCloud (some "u") false exSt1
            (.ok ⟨true, none, some [("2024-01-02", [("r1", false)])], none⟩)).1.records =
        some [("r1", false)] ∧
      lookupKey "2024-01-01"
          (syncFromCloud (some "u") false exSt1
            (.ok ⟨true, none, some [("2024-01-01", [("r1", false)])], none⟩)).1.records =
        some [("r1", false)] ∧
      (syncFromCloud (some "u") false exSt1
          (.ok ⟨true, some [⟨"r9", "R", ""⟩], none, none⟩)).1.routines =
        [⟨"r9", "R", ""⟩] := by
  refine ⟨(syncFromCloud_success_merge "u" exSt1 _ rfl).1,
    (syncFromCloud_success_merge "u" exSt1 _ rfl).2.2.1 "2024-01-01" (by decide),
    (syncFromCloud_success_merge "u" exSt1 _ rfl).2.2.2 "2024-01-02" [("r1", false)]
      (by decide),
    (syncFromCloud_success_merge "u" exSt1 _ rfl).2.2.2 "2024-01-01" [("r1", false)]
      (by decide),
    (syncFromCloud_success_merge "u" exSt1 _ rfl).2.1 [⟨"r9", "R", ""⟩] rfl
      (by decide)⟩

/-- C8: every failing pull leaves the local state untouched and returns
false: a missing endpoint or an in-flight sync short-circuits with no status
change at all; a thrown fetch/parse exception or a body with success false
ends in the error status. -/
theorem syncFromCloud_failure_frame (scriptUrl : Option String) (isSyncing : Bool)
    (st : LocalState) (outcome : FetchOutcome) :
    (scriptUrl = none ∨ isSyncing = true →
        syncFromCloud scriptUrl isSyncing st outcome = (st, false, none)) ∧
      (∀ u, scriptUrl = some u → isSyncing = false → outcome = .exn →
          syncFromCloud scriptUrl isSyncing st outcome =
            (st, false, some SyncStatus.error)) ∧
      (∀ u data, scriptUrl = some u → isSyncing = false → outcome = .ok data →
          data.success = false →
          syncFromCloud scriptUrl isSyncing st outcome =
            (st, false, some SyncStatus.error)) := by
  refine ⟨?_, ?_, ?_⟩
  · rintro (h | h) <;> subst h <;> simp [syncFromCloud]
  · rintro u h hb ho
    subst h; subst hb; subst ho
    simp [syncFromCloud]
  · rintro u data h hb ho hsucc
    subst h; subst hb; subst ho
    simp [syncFromCloud, hsucc]

/-- Witness for C8: unconfigured endpoint, busy flag, thrown fetch, and a
success-false body, each on a concrete state. -/
theorem syncFromCloud_failure_frame_w :
    syncFromCloud none false exSt1 .exn = (exSt1, false, none) ∧
      syncFromCloud (some "u") true exSt1 .exn = (exSt1, false, none) ∧
      syncFromCloud (some "u") false exSt1 .exn =
        (exSt1, false, some SyncStatus.error) ∧
      syncFromCloud (some "u") false exSt1
          (.ok ⟨false, some [⟨"r9", "R", ""⟩], some [("2024-01-02", [("r1", false)])],
            some "boom"⟩) =
        (exSt1, false, some SyncStatus.error) :=
  ⟨(syncFromCloud_failure_frame none false exSt1 .exn).1 (Or.inl rfl),
   (syncFromCloud_failure_frame (some "u") true exSt1 .exn).1 (Or.inr rfl),
   (syncFromCloud_failure_frame (some "u") false exSt1 .exn).2.1 "u" rfl rfl rfl,
   (syncFromCloud_failure_frame (some "u") false exSt1 _).2.2 "u" _ rfl rfl rfl rfl⟩

-- ===== src/app.js : renderHeatmap cell generation (lines 337-381) =====

/-- A heatmap cell as pushed by `renderHeatmap` (the `displayDate` label is
presentation-only and omitted).  `day` is the underlying calendar day as an
integer day number (days since 1970-01-01); `date` is the canonical key the
code stores in `data-date`. -/
structure Cell where
  day : ℤ
  date : String
  progress : ℤ
  level : ℕ
  isFuture : Bool
deriving DecidableEq, Repr

/-- 2026-01-01 as a day number (days since 1970-01-01). -/
def jan1_2026 : ℤ := 20454

/-- JS `Date.prototype.getDay()` on a day number: day 0 (1970-01-01) was a
Thursday, so weekday `(d + 4) mod 7` with 0 = Sunday. -/
def getDay (d : ℤ) : ℤ := (d + 4).emod 7

/-- One loop iteration body of `renderHeatmap` (src/app.js lines 357-378):
the cell pushed for day `d`.  `fmt` abstracts `formatDate` (the canonical
key of a day number). -/
def mkCell (fmt : ℤ → String) (routines : List Routine) (records : Ledger)
    (today d : ℤ) : Cell :=
  let dateKey := fmt d
  let progress := calculateProgress routines records dateKey
  let level := getHeatmapLevel progress
  let isFuture : Bool := today < d
  { day := d, date := dateKey, progress := progress,
    level := if isFuture then 0 else level, isFuture := isFuture }

/-- The `while (currentDate <= today || cells.length % 7 !== 0)` loop of
`renderHeatmap`, pushing one cell per day. -/
def heatmapLoop (today : ℤ) (mk : ℤ → Cell) (d : ℤ) (acc : List Cell) : List Cell :=
  if _h : d ≤ today ∨ acc.length % 7 ≠ 0 then
    heatmapLoop today mk (d + 1) (acc ++ [mk d])
  else acc
termination_by
  (if d ≤ today then (today + 1 - d).toNat * 7 else 0) + (7 - acc.length % 7) % 7
decreasing_by
  simp only [List.length_append, List.length_cons, List.length_nil]
  split <;> split <;> omega

/-- The cell sequence built by `renderHeatmap` (src/app.js lines 341-381):
start at 2026-01-01 moved back to the preceding Sunday, then loop. -/
def renderHeatmapCells (fmt : ℤ → String) (routines : List Routine)
    (records : Ledger) (today : ℤ) : List Cell :=
  let startDate := jan1_2026
  let dayOfWeek := getDay startDate
  let start := if dayOfWeek ≠ 0 then startDate - dayOfWeek else startDate
  heatmapLoop today (mkCell fmt routines records today) start []

theorem heatmapLoop_length_mod (today : ℤ) (mk : ℤ → Cell) (d : ℤ) (acc : List Cell) :
    (heatmapLoop today mk d acc).length % 7 = 0 := by
  induction d, acc using heatmapLoop.induct today mk with
  | case1 d acc h ih =>
    rw [heatmapLoop, dif_pos h]
    exact ih
  | case2 d acc h =>
    rw [heatmapLoop, dif_neg h]
    push_neg at h
    exact h.2

theorem heatmapLoop_future (today : ℤ) (mk : ℤ → Cell)
    (hday : ∀ d, (mk d).day = d)
    (hmk : ∀ d, today < d → (mk d).level = 0 ∧ (mk d).isFuture = true)
    (d : ℤ) (acc : List Cell) :
    (∀ c ∈ acc, today < c.day → c.level = 0 ∧ c.isFuture = true) →
      ∀ c ∈ heatmapLoop today mk d acc,
        today < c.day → c.level = 0 ∧ c.isFuture = true := by
  induction d, acc using heatmapLoop.induct today mk with
  | case1 d acc h ih =>
    intro hacc
    rw [heatmapLoop, dif_pos h]
    apply ih
    intro c hc
    rcases List.mem_append.mp hc with hc | hc
    · exact hacc c hc
    · have hc' : c = mk d := List.mem_singleton.mp hc
      subst hc'
      intro hlt
      exact hmk d (by rwa [hday d] at hlt)
  | case2 d acc h =>
    intro hacc
    rw [heatmapLoop, dif_neg h]
    exact hacc

/-- C6: for every ledger, routine collection, key formatter and value of
`today`, the heatmap cell sequence has length divisible by 7, and every cell
for a day strictly after `today` has level 0 and is future-flagged,
regardless of stored completion data. -/
theorem renderHeatmap_grid (fmt : ℤ → String) (routines : List Routine)
    (records : Ledger) (today : ℤ) :
    (renderHeatmapCells fmt routines records today).length % 7 = 0 ∧
      ∀ c ∈ renderHeatmapCells fmt routines records today,
        today < c.day → c.level = 0 ∧ c.isFuture = true := by
  constructor
  · exact heatmapLoop_length_mod today (mkCell fmt routines records today) _ []
  · apply heatmapLoop_future today (mkCell fmt routines records today)
    · intro d
      rfl
    · intro d hlt
      constructor
      · simp [mkCell, hlt]
      · simp [mkCell, hlt]
    · intro c hc
      simp at hc

/-- Witness for C6: with `today` equal to the grid start (2025-12-28, the
Sunday before 2026-01-01), the grid is one 7-cell week whose second cell
(the day after `today`) is future-flagged with level 0. -/
theorem renderHeatmap_grid_w :
    (renderHeatmapCells (fun _ => "") [] [] 20450).length % 7 = 0 ∧
      mkCell (fun _ => "") [] [] 20450 20451 ∈
        renderHeatmapCells (fun _ => "") [] [] 20450 ∧
      (20450 : ℤ) < (mkCell (fun _ => "") [] [] 20450 20451).day ∧
      (mkCell (fun _ => "") [] [] 20450 20451).level = 0 ∧
      (mkCell (fun _ => "") [] [] 20450 20451).isFuture = true := by
  have H := renderHeatmap_grid (fun _ => "") [] [] 20450
  have step : ∀ d acc, (d ≤ 20450 ∨ acc.length % 7 ≠ 0) →
      heatmapLoop 20450 (mkCell (fun _ => "") [] [] 20450) d acc =
        heatmapLoop 20450 (mkCell (fun _ => "") [] [] 20450) (d + 1)
          (acc ++ [mkCell (fun _ => "") [] [] 20450 d]) := by
    intro d acc h
    rw [heatmapLoop, dif_pos h]
  have hstop : ∀ d acc, ¬(d ≤ 20450 ∨ acc.length % 7 ≠ 0) →
      heatmapLoop 20450 (mkCell (fun _ => "") [] [] 20450) d acc = acc := by
    intro d acc h
    rw [heatmapLoop, dif_neg h]
  have e0 : renderHeatmapCells (fun _ => "") [] [] 20450 =
      heatmapLoop 20450 (mkCell (fun _ => "") [] [] 20450) 20450 [] := rfl
  have hmem : mkCell (fun _ => "") [] [] 20450 20451 ∈
      renderHeatmapCells (fun _ => "") [] [] 20450 := by
    rw [e0, step _ _ (by norm_num), step _ _ (by norm_num), step _ _ (by norm_num),
      step _ _ (by norm_num), step _ _ (by norm_num), step _ _ (by norm_num),
      step _ _ (by norm_num), hstop _ _ (by norm_num)]
    norm_num
  have hlt : (20450 : ℤ) < (mkCell (fun _ => "") [] [] 20450 20451).day := by
    norm_num [mkCell]
  have hcell := H.2 (mkCell (fun _ => "") [] [] 20450 20451) hmem hlt
  exact ⟨H.1, hmem, hlt, hcell.1, hcell.2⟩

end RoutineApp
